import Mathlib

/-!
Verification of the binary decoding and extraction core of
`transsion_twrp_gen_vendor_boot.py`: the vendor_boot header parser, the
ramdisk-table decoder, the DTB offset calculator, the cpio "newc" extractor and
the `adaptive-ts.ko` byte-pattern patcher.  Bytes are modelled as `Nat`, byte
buffers as `List Nat`, Python strings as Lean `String`, and the extractor's
filesystem side effects as an explicit list of actions.
-/

namespace VendorBoot

/-- Python slice `l[off : off+len]` on a byte buffer (clamping, never failing). -/
def sliceBytes (l : List Nat) (off len : Nat) : List Nat :=
  (l.drop off).take len

/-- Little-endian value of a byte list, as produced by `struct.unpack('<I', …)`
    / `struct.unpack('<Q', …)` on a slice of the right width. -/
def le_value (bs : List Nat) : Nat :=
  bs.foldr (fun b acc => b + 256 * acc) 0

/-- Python `struct.unpack('<I', data[off:off+4])[0]`: fails (struct.error) unless the
    slice has exactly 4 bytes. -/
def readU32 (data : List Nat) (off : Nat) : Option Nat :=
  let s := sliceBytes data off 4
  if s.length = 4 then some (le_value s) else none

/-- Python `struct.unpack('<Q', data[off:off+8])[0]`. -/
def readU64 (data : List Nat) (off : Nat) : Option Nat :=
  let s := sliceBytes data off 8
  if s.length = 8 then some (le_value s) else none

/-- Python `bs.rstrip(b'\x00')`: drop trailing NUL bytes. -/
def pyRstripNul (bs : List Nat) : List Nat :=
  (bs.reverse.dropWhile (fun b => b == 0)).reverse

/-- Continuation byte test 0x80–0xBF. -/
def utf8Cont (b : Nat) : Bool := 0x80 ≤ b && b ≤ 0xBF

/-- Allowed range of the first continuation byte of a 3-byte sequence. -/
def utf8Cont3First (lead b : Nat) : Bool :=
  if lead = 0xE0 then 0xA0 ≤ b && b ≤ 0xBF
  else if lead = 0xED then 0x80 ≤ b && b ≤ 0x9F
  else utf8Cont b

/-- Allowed range of the first continuation byte of a 4-byte sequence. -/
def utf8Cont4First (lead b : Nat) : Bool :=
  if lead = 0xF0 then 0x90 ≤ b && b ≤ 0xBF
  else if lead = 0xF4 then 0x80 ≤ b && b ≤ 0x8F
  else utf8Cont b

/-- UTF-8 decoding with a lenient error handler: on each invalid (maximal)
    subpart the characters `repl` are emitted and decoding resumes at the next
    byte.  `repl = []` gives Python's `errors='ignore'`, `repl = [U+FFFD]`
    gives `errors='replace'`. -/
def utf8DecodeChars (repl : List Char) : List Nat → List Char
  | [] => []
  | b :: r =>
    if b < 0x80 then Char.ofNat b :: utf8DecodeChars repl r
    else if 0xC2 ≤ b && b ≤ 0xDF then
      match r with
      | [] => repl
      | b1 :: r1 =>
        if utf8Cont b1 then
          Char.ofNat ((b - 0xC0) * 0x40 + (b1 - 0x80)) :: utf8DecodeChars repl r1
        else repl ++ utf8DecodeChars repl (b1 :: r1)
    else if 0xE0 ≤ b && b ≤ 0xEF then
      match r with
      | [] => repl
      | b1 :: r1 =>
        if utf8Cont3First b b1 then
          match r1 with
          | [] => repl
          | b2 :: r2 =>
            if utf8Cont b2 then
              Char.ofNat ((b - 0xE0) * 0x1000 + (b1 - 0x80) * 0x40 + (b2 - 0x80)) ::
                utf8DecodeChars repl r2
            else repl ++ utf8DecodeChars repl (b2 :: r2)
        else repl ++ utf8DecodeChars repl (b1 :: r1)
    else if 0xF0 ≤ b && b ≤ 0xF4 then
      match r with
      | [] => repl
      | b1 :: r1 =>
        if utf8Cont4First b b1 then
          match r1 with
          | [] => repl
          | b2 :: r2 =>
            if utf8Cont b2 then
              match r2 with
              | [] => repl
              | b3 :: r3 =>
                if utf8Cont b3 then
                  Char.ofNat ((b - 0xF0) * 0x40000 + (b1 - 0x80) * 0x1000 +
                    (b2 - 0x80) * 0x40 + (b3 - 0x80)) :: utf8DecodeChars repl r3
                else repl ++ utf8DecodeChars repl (b3 :: r3)
            else repl ++ utf8DecodeChars repl (b2 :: r2)
        else repl ++ utf8DecodeChars repl (b1 :: r1)
    else repl ++ utf8DecodeChars repl r

/-- Python `bs.decode('utf-8', errors='ignore')`. -/
def pyDecodeUtf8Ignore (bs : List Nat) : String :=
  ⟨utf8DecodeChars [] bs⟩

/-- Modelled from the spec's words "invalid byte sequences are replaced":
    Python `bs.decode('utf-8', errors='replace')`, substituting U+FFFD. -/
def pyDecodeUtf8Replace (bs : List Nat) : String :=
  ⟨utf8DecodeChars [Char.ofNat 0xFFFD] bs⟩

/-- Strict ASCII decode of bytes already checked to be < 0x80
    (`bs.decode('ascii')` on its success path). -/
def asciiDecode (bs : List Nat) : String :=
  ⟨bs.map Char.ofNat⟩

/-- Value of one ASCII hex digit, `none` for a non-digit byte. -/
def hexVal (b : Nat) : Option Nat :=
  if 48 ≤ b && b ≤ 57 then some (b - 48)
  else if 97 ≤ b && b ≤ 102 then some (b - 87)
  else if 65 ≤ b && b ≤ 70 then some (b - 55)
  else none

/-- Python `int(bs, 16)` on an all-hex-digit byte string; `none` (ValueError)
    if some byte is not a hex digit. -/
def pyIntHex (bs : List Nat) : Option Nat :=
  bs.foldl
    (fun acc b =>
      match acc, hexVal b with
      | some v, some d => some (v * 16 + d)
      | _, _ => none)
    (some 0)

/-- Lowercase hex digit character. -/
def hexChar (n : Nat) : Char :=
  if n < 10 then Char.ofNat (48 + n) else Char.ofNat (87 + n)

/-- Python `bytes.hex()`: two lowercase hex digits per byte. -/
def bytesToHex (bs : List Nat) : String :=
  ⟨bs.foldr (fun b acc => hexChar (b / 16 % 16) :: hexChar (b % 16) :: acc) []⟩

/-- Python `s.lstrip('/')`: drop all leading slash characters. -/
def pyLstripSlash (s : String) : String :=
  ⟨s.data.dropWhile (fun c => c == '/')⟩

/-- Python `s.startswith('/')`. -/
def headIsSlash (s : String) : Bool := s.data.head? == some '/'

/-- Python `s.endswith('/')`. -/
def lastIsSlash (s : String) : Bool := s.data.getLast? == some '/'

/-- POSIX `os.path.join(a, b)` for two components. -/
def os_path_join (a b : String) : String :=
  if headIsSlash b then b
  else if a = "" || lastIsSlash a then a ++ b
  else a ++ "/" ++ b

/-- POSIX `os.path.dirname(p)`: everything before the last slash, with
    trailing slashes stripped unless the head is all slashes. -/
def os_path_dirname (p : String) : String :=
  match p.data.reverse.findIdx? (fun c => c == '/') with
  | none => ""
  | some k =>
    let head := p.data.take (p.data.length - k)
    if head.all (fun c => c == '/') then ⟨head⟩
    else ⟨(head.reverse.dropWhile (fun c => c == '/')).reverse⟩

-- -------------------- Constants (source: "Constants" section) --------------------

/-- Constant `BOOT_MAGIC_VENDOR_BOOT = b"VNDRBOOT"` as bytes. -/
def BOOT_MAGIC_VENDOR_BOOT : List Nat := [86, 78, 68, 82, 66, 79, 79, 84]

def VENDOR_RAMDISK_CMDLINE_SIZE : Nat := 2048
def BOOT_PRODUCT_NAME_SIZE : Nat := 64
def VENDOR_RAMDISK_NAME_SIZE : Nat := 32
def BOOT_ID_SIZE : Nat := 32

def VENDOR_RAMDISK_TYPE_NONE : Nat := 0
def VENDOR_RAMDISK_TYPE_PLATFORM : Nat := 1
def VENDOR_RAMDISK_TYPE_RECOVERY : Nat := 2
def VENDOR_RAMDISK_TYPE_DLKM : Nat := 3

-- -------------------- Vendor Boot Parser --------------------

/-- The fields of `VendorBootHeader.__init__`, including the retained buffer
    `self.data` and the derived `table_offset`. -/
structure VendorBootHeader where
  data : List Nat
  magic : List Nat
  header_version : Nat
  page_size : Nat
  kernel_load_addr : Nat
  ramdisk_load_addr : Nat
  vendor_ramdisk_total_size : Nat
  cmdline : String
  tags_load_addr : Nat
  product_name : String
  header_size : Nat
  dtb_size : Nat
  dtb_load_addr : Nat
  vendor_ramdisk_table_size : Nat
  vendor_ramdisk_table_num_entries : Nat
  vendor_bootconfig_size : Nat
  table_offset : Nat
deriving DecidableEq

/-- Source `VendorBootHeader.__init__(data)`: sequential little-endian field reads at
    fixed offsets (8, 12, 16, 20, 24, cmdline at 28, 2076, product name at
    2080, 2144, 2148, 2152 (64-bit), 2160, 2164, 2168; `table_offset = 2172`).
    Fails on a magic mismatch (ValueError) or on any unpack of a short slice
    (struct.error). -/
def VendorBootHeader.parse (data : List Nat) : Except String VendorBootHeader :=
  if data.take 8 ≠ BOOT_MAGIC_VENDOR_BOOT then
    .error "Invalid magic"
  else
    match readU32 data 8, readU32 data 12, readU32 data 16, readU32 data 20,
        readU32 data 24, readU32 data 2076, readU32 data 2144, readU32 data 2148,
        readU64 data 2152, readU32 data 2160, readU32 data 2164, readU32 data 2168 with
    | some header_version, some page_size, some kernel_load_addr,
      some ramdisk_load_addr, some vendor_ramdisk_total_size, some tags_load_addr,
      some header_size, some dtb_size, some dtb_load_addr,
      some vendor_ramdisk_table_size, some vendor_ramdisk_table_num_entries,
      some vendor_bootconfig_size =>
        .ok
          { data := data
            magic := data.take 8
            header_version := header_version
            page_size := page_size
            kernel_load_addr := kernel_load_addr
            ramdisk_load_addr := ramdisk_load_addr
            vendor_ramdisk_total_size := vendor_ramdisk_total_size
            cmdline := pyDecodeUtf8Ignore
              (pyRstripNul (sliceBytes data 28 VENDOR_RAMDISK_CMDLINE_SIZE))
            tags_load_addr := tags_load_addr
            product_name := pyDecodeUtf8Ignore
              (pyRstripNul (sliceBytes data 2080 BOOT_PRODUCT_NAME_SIZE))
            header_size := header_size
            dtb_size := dtb_size
            dtb_load_addr := dtb_load_addr
            vendor_ramdisk_table_size := vendor_ramdisk_table_size
            vendor_ramdisk_table_num_entries := vendor_ramdisk_table_num_entries
            vendor_bootconfig_size := vendor_bootconfig_size
            table_offset := 2172 }
    | _, _, _, _, _, _, _, _, _, _, _, _ => .error "struct.error: truncated header"

/-- One decoded ramdisk-table entry (`VendorRamdiskEntry.__init__`). -/
structure VendorRamdiskEntry where
  size : Nat
  offset : Nat
  type : Nat
  name : String
  board_id : String
  type_str : String
deriving DecidableEq

/-- The `{0: "none", 1: "platform", 2: "recovery", 3: "dlkm"}.get(t, f"unknown({t})")`
    mapping used for `type_str`. -/
def typeStrOf (t : Nat) : String :=
  if t = VENDOR_RAMDISK_TYPE_NONE then "none"
  else if t = VENDOR_RAMDISK_TYPE_PLATFORM then "platform"
  else if t = VENDOR_RAMDISK_TYPE_RECOVERY then "recovery"
  else if t = VENDOR_RAMDISK_TYPE_DLKM then "dlkm"
  else "unknown(" ++ toString t ++ ")"

/-- Source `VendorRamdiskEntry.__init__(entry_data)` on a full 76-byte slice:
    size at 0, offset at 4, type at 8, NUL-trimmed name at 12 (32 bytes),
    `board_id` as lowercase hex of the 32 bytes at 44. -/
def parseRamdiskEntry (entry_data : List Nat) : VendorRamdiskEntry :=
  let type := le_value (sliceBytes entry_data 8 4)
  { size := le_value (sliceBytes entry_data 0 4)
    offset := le_value (sliceBytes entry_data 4 4)
    type := type
    name := pyDecodeUtf8Ignore
      (pyRstripNul (sliceBytes entry_data 12 VENDOR_RAMDISK_NAME_SIZE))
    board_id := bytesToHex
      (sliceBytes entry_data (12 + VENDOR_RAMDISK_NAME_SIZE) BOOT_ID_SIZE)
    type_str := typeStrOf type }

/-- The entry loop of `get_ramdisk_entries`: for `n` remaining entries starting
    at index `i`, slice 76 bytes at `table_offset + i * entry_size`, raising
    `ValueError("Truncated ramdisk table at entry i")` on a short slice. -/
def ramdiskEntriesLoop (data : List Nat) (table_offset entry_size : Nat) :
    Nat → Nat → Except String (List VendorRamdiskEntry)
  | _, 0 => .ok []
  | i, n + 1 =>
    let start := table_offset + i * entry_size
    let entry_data := sliceBytes data start entry_size
    if entry_data.length < entry_size then
      .error ("Truncated ramdisk table at entry " ++ toString i)
    else
      match ramdiskEntriesLoop data table_offset entry_size (i + 1) n with
      | .ok rest => .ok (parseRamdiskEntry entry_data :: rest)
      | .error e => .error e

/-- Source `VendorBootHeader.get_ramdisk_entries(self)`. -/
def VendorBootHeader.get_ramdisk_entries (h : VendorBootHeader) :
    Except String (List VendorRamdiskEntry) :=
  if h.vendor_ramdisk_table_num_entries = 0 then .ok []
  else
    let entry_size := 4 + 4 + 4 + VENDOR_RAMDISK_NAME_SIZE + BOOT_ID_SIZE
    ramdiskEntriesLoop h.data h.table_offset entry_size 0
      h.vendor_ramdisk_table_num_entries

/-- Source `VendorBootHeader.get_dtb_offset(self)`; the subtraction is Python integer
    subtraction, so the result is an `Int`. -/
def VendorBootHeader.get_dtb_offset (h : VendorBootHeader) : Int :=
  let ramdisk_start : Int := (h.header_size : Int) + (h.vendor_bootconfig_size : Int)
  let dtb_offset : Int := ramdisk_start + (h.vendor_ramdisk_total_size : Int)
  if dtb_offset + (h.dtb_size : Int) > (h.data.length : Int) then
    (h.data.length : Int) - (h.dtb_size : Int)
  else dtb_offset

-- -------------------- CPIO extraction --------------------

/-- The fourteen ASCII-hex header fields after the 6-byte magic
    (`inode = int(header[6:14], 16)` and so on). -/
structure CpioFields where
  inode : Nat
  mode : Nat
  uid : Nat
  gid : Nat
  nlink : Nat
  mtime : Nat
  filesize : Nat
  devmajor : Nat
  devminor : Nat
  rdevmajor : Nat
  rdevminor : Nat
  namesize : Nat
  check : Nat
deriving DecidableEq

/-- The thirteen `int(header[a:b], 16)` parses of `extract_cpio`; `none` when
    any of them raises ValueError. -/
def parseCpioInts (header : List Nat) : Option CpioFields := do
  let inode ← pyIntHex (sliceBytes header 6 8)
  let mode ← pyIntHex (sliceBytes header 14 8)
  let uid ← pyIntHex (sliceBytes header 22 8)
  let gid ← pyIntHex (sliceBytes header 30 8)
  let nlink ← pyIntHex (sliceBytes header 38 8)
  let mtime ← pyIntHex (sliceBytes header 46 8)
  let filesize ← pyIntHex (sliceBytes header 54 8)
  let devmajor ← pyIntHex (sliceBytes header 62 8)
  let devminor ← pyIntHex (sliceBytes header 70 8)
  let rdevmajor ← pyIntHex (sliceBytes header 78 8)
  let rdevminor ← pyIntHex (sliceBytes header 86 8)
  let namesize ← pyIntHex (sliceBytes header 94 8)
  let check ← pyIntHex (sliceBytes header 102 8)
  some ⟨inode, mode, uid, gid, nlink, mtime, filesize, devmajor, devminor,
    rdevmajor, rdevminor, namesize, check⟩

/-- Python `stat.S_ISDIR(mode)`. -/
def S_ISDIR (mode : Nat) : Bool := mode &&& 0o170000 == 0o040000

/-- Python `stat.S_ISLNK(mode)`. -/
def S_ISLNK (mode : Nat) : Bool := mode &&& 0o170000 == 0o120000

/-- A filesystem side effect performed by the extraction loop. -/
inductive FsAction where
  | mkdirs (path : String)
  | symlink (target : String) (path : String)
  | createEmpty (path : String)
  | writeFile (path : String) (content : List Nat)
deriving DecidableEq

/-- A Python exception escaping the extraction loop. -/
inductive PyExc where
  | unicodeDecodeError
  | valueError
deriving DecidableEq

/-- Why the extraction loop ended.  `fuelOut` is a model artifact of the fuel
    encoding and is proved unreachable. -/
inductive CpioStop where
  | sentinel
  | badMagic (magic : String)
  | shortRead
  | raised (e : PyExc)
  | fuelOut
deriving DecidableEq

/-- Result of the extraction loop: the filesystem actions in order, and the
    stop reason. -/
structure ExtractResult where
  actions : List FsAction
  stop : CpioStop
deriving DecidableEq

/-- The `while True` loop of `extract_cpio`, reading from the byte stream `s`
    (Python `f.read(n)` is `take`/`drop`).  Structured on explicit fuel; one
    record consumes at least the 110 header bytes, so `s.length / 110 + 1`
    fuel always suffices (see `extractLoopFuel_fuelOut`). -/
def extractLoopFuel (dest_dir : String) : Nat → List Nat → ExtractResult
  | 0, _ => ⟨[], .fuelOut⟩
  | fuel + 1, s =>
    let header := s.take 110
    if header.length < 110 then ⟨[], .shortRead⟩
    else
      let rest110 := s.drop 110
      let magicBytes := header.take 6
      if magicBytes.any (fun b => 128 ≤ b) then ⟨[], .raised .unicodeDecodeError⟩
      else
        let magic := asciiDecode magicBytes
        if magic ≠ "070701" && magic ≠ "070702" then ⟨[], .badMagic magic⟩
        else
          match parseCpioInts header with
          | none => ⟨[], .raised .valueError⟩
          | some f =>
            let filename_raw := rest110.take f.namesize
            let afterName := rest110.drop f.namesize
            let padding := (4 - f.namesize % 4) % 4
            let rest2 := afterName.drop padding
            let filename := pyDecodeUtf8Ignore (pyRstripNul filename_raw)
            if filename = "TRAILER!!!" then ⟨[], .sentinel⟩
            else
              let full_path := os_path_join dest_dir (pyLstripSlash filename)
              if f.filesize = 0 then
                if S_ISDIR f.mode then
                  let r := extractLoopFuel dest_dir fuel rest2
                  ⟨.mkdirs full_path :: r.actions, r.stop⟩
                else if S_ISLNK f.mode then
                  let link_target := pyDecodeUtf8Ignore (rest2.take f.filesize)
                  let pad := (4 - f.filesize % 4) % 4
                  let rest3 := (rest2.drop f.filesize).drop pad
                  let r := extractLoopFuel dest_dir fuel rest3
                  ⟨.symlink link_target full_path :: r.actions, r.stop⟩
                else
                  let r := extractLoopFuel dest_dir fuel rest2
                  ⟨.mkdirs (os_path_dirname full_path) :: .createEmpty full_path ::
                    r.actions, r.stop⟩
              else
                let data := rest2.take f.filesize
                let pad := (4 - f.filesize % 4) % 4
                let rest3 := (rest2.drop f.filesize).drop pad
                let r := extractLoopFuel dest_dir fuel rest3
                ⟨.mkdirs (os_path_dirname full_path) :: .writeFile full_path data ::
                  r.actions, r.stop⟩

/-- The record-decoding loop of `extract_cpio(cpio_file, dest_dir)` on the
    (non-gzipped) byte stream `s`. -/
def extract_cpio_loop (dest_dir : String) (s : List Nat) : ExtractResult :=
  extractLoopFuel dest_dir (s.length / 110 + 1) s

-- -------------------- Recovery ramdisk selection (_extract_from_image) ---------

/-- Source `os.path.join(self.work_dir, f"ramdisk_{entry.name or entry.type_str}")`:
    Python `or` falls back on the empty (falsy) name. -/
def ramdisk_dir_name (work_dir : String) (e : VendorRamdiskEntry) : String :=
  os_path_join work_dir
    ("ramdisk_" ++ (if e.name ≠ "" then e.name else e.type_str))

/-- The `recovery_ramdisk_dir` computed by `DeviceInfo._extract_from_image`:
    the entry loop assigns the directory for every entry whose type is
    `VENDOR_RAMDISK_TYPE_RECOVERY`; afterwards, if still unset and the table is
    non-empty, the first entry's directory is used; `none` means the
    `RuntimeError("No recovery ramdisk found.")` path. -/
def select_recovery_ramdisk_dir (work_dir : String)
    (entries : List VendorRamdiskEntry) : Option String :=
  let afterLoop := entries.foldl
    (fun acc e =>
      if e.type = VENDOR_RAMDISK_TYPE_RECOVERY then some (ramdisk_dir_name work_dir e)
      else acc)
    none
  match afterLoop with
  | some d => some d
  | none =>
    match entries with
    | [] => none
    | e :: _ => some (ramdisk_dir_name work_dir e)

/-- Modelled from the spec's words for the selection rule: "prefer the first
    entry whose type is `recovery`; if none exists, fall back to the first
    entry in table order". -/
def select_recovery_first_spec (work_dir : String)
    (entries : List VendorRamdiskEntry) : Option String :=
  match entries.find? (fun e => e.type == VENDOR_RAMDISK_TYPE_RECOVERY) with
  | some e => some (ramdisk_dir_name work_dir e)
  | none => entries.head?.map (ramdisk_dir_name work_dir)

-- -------------------- Touch Patch Function (patch_adaptive_ts) --------------------

def pattern1_old : List Nat := [0x60, 0x00, 0x00, 0x54, 0x40, 0x00]
def pattern1_new : List Nat := [0x60, 0x00, 0x00, 0x54, 0x00, 0x00]
def pattern2_old : List Nat := [0x20, 0x00, 0x80, 0x52]
def pattern2_new : List Nat := [0x00, 0x00, 0x80, 0x52]

/-- Test that `pat` occurs in `hay` starting at byte offset `i` (Bool form). -/
def bytesSliceEq (hay pat : List Nat) (i : Nat) : Bool :=
  sliceBytes hay i pat.length == pat

/-- Predicate that `pat` occurs in `hay` starting at byte offset `i`. -/
def hasOccAt (hay pat : List Nat) (i : Nat) : Prop :=
  sliceBytes hay i pat.length = pat

instance (hay pat : List Nat) (i : Nat) : Decidable (hasOccAt hay pat i) := by
  unfold hasOccAt; infer_instance

/-- Downward scan used to model Python `bytes.rfind`: try offsets `i, i-1, …, 0`. -/
def rfindGo (hay pat : List Nat) : Nat → Option Nat
  | 0 => if bytesSliceEq hay pat 0 then some 0 else none
  | i + 1 => if bytesSliceEq hay pat (i + 1) then some (i + 1) else rfindGo hay pat i

/-- Python `hay.rfind(pat)` for non-empty `pat` (index of the rightmost
    occurrence; `none` for -1). -/
def bytesRfind (hay pat : List Nat) : Option Nat :=
  rfindGo hay pat hay.length

/-- Upward scan used to model Python `bytes.find(pat, start)`: try `fuel`
    offsets `i, i+1, …`. -/
def findFromGo (hay pat : List Nat) : Nat → Nat → Option Nat
  | _, 0 => none
  | i, fuel + 1 =>
    if bytesSliceEq hay pat i then some i else findFromGo hay pat (i + 1) fuel

/-- Python `hay.find(pat, start)` for non-empty `pat` (index of the leftmost
    occurrence at or after `start`; `none` for -1). -/
def bytesFindFrom (hay pat : List Nat) (start : Nat) : Option Nat :=
  findFromGo hay pat start (hay.length + 1 - start)

/-- Python `new_data[:pos] + new + new_data[pos+len(old):]`. -/
def pyReplace (l : List Nat) (pos : Nat) (new old : List Nat) : List Nat :=
  l.take pos ++ new ++ l.drop (pos + old.length)

/-- The result of `patch_adaptive_ts` on the in-memory blob: the final
    `new_data`, and the `modified` flag that gates the write-back. -/
structure PatchResult where
  new_data : List Nat
  modified : Bool
deriving DecidableEq

/-- Second half of `patch_adaptive_ts`: `if search_start < len(new_data):`
    then find/replace `pattern2_old` from `search_start`. -/
def patch_step2 (new_data : List Nat) (search_start : Nat) (modified : Bool) :
    PatchResult :=
  if search_start < new_data.length then
    match bytesFindFrom new_data pattern2_old search_start with
    | some pos2 => ⟨pyReplace new_data pos2 pattern2_new pattern2_old, true⟩
    | none => ⟨new_data, modified⟩
  else ⟨new_data, modified⟩

/-- The pure blob transformation of `patch_adaptive_ts(module_path)`:
    replace the rightmost `pattern1_old`, set the cursor just after it
    (0 when absent), then replace the first `pattern2_old` at or after the
    cursor. -/
def patch_adaptive_ts (data : List Nat) : PatchResult :=
  match bytesRfind data pattern1_old with
  | some last_pos =>
    patch_step2 (pyReplace data last_pos pattern1_new pattern1_old)
      (last_pos + pattern1_new.length) true
  | none => patch_step2 data 0 false

/-- The blob after the first (pattern-1) step only. -/
def patch_blob1 (data : List Nat) : List Nat :=
  match bytesRfind data pattern1_old with
  | some last_pos => pyReplace data last_pos pattern1_new pattern1_old
  | none => data

/-- The `search_start` cursor after the first step. -/
def patch_cursor1 (data : List Nat) : Nat :=
  match bytesRfind data pattern1_old with
  | some last_pos => last_pos + pattern1_new.length
  | none => 0

/-- Modelled from the spec's words for the patch algorithm: replace the last
    occurrence of pattern-1, then the first occurrence of pattern-2 at or
    after the cursor — with no `search_start < len` guard. -/
def patch_spec (data : List Nat) : PatchResult :=
  let blob1 := patch_blob1 data
  let m1 := (bytesRfind data pattern1_old).isSome
  match bytesFindFrom blob1 pattern2_old (patch_cursor1 data) with
  | some pos2 => ⟨pyReplace blob1 pos2 pattern2_new pattern2_old, true⟩
  | none => ⟨blob1, m1⟩

-- -------------------- Path containment --------------------

/-- Split a character list at every occurrence of `sep`. -/
def splitOnChar (sep : Char) : List Char → List (List Char)
  | [] => [[]]
  | c :: cs =>
    let r := splitOnChar sep cs
    if c == sep then [] :: r
    else
      match r with
      | [] => [[c]]
      | seg :: rest => (c :: seg) :: rest

/-- Non-trivial segments of a POSIX path (empty and `.` segments dropped). -/
def pathSegs (p : String) : List String :=
  ((splitOnChar '/' p.data).map (fun cs => (⟨cs⟩ : String))).filter
    (fun s => s ≠ "" && s ≠ ".")

/-- Resolve `..` segments against an absolute root (POSIX semantics: `..` at
    the root stays at the root). -/
def normSegs (segs : List String) : List String :=
  segs.foldl (fun st s => if s = ".." then st.dropLast else st ++ [s]) []

/-- Predicate that `p` stays inside the directory `root` once `..` segments are resolved. -/
def staysWithin (root p : String) : Bool :=
  (normSegs (pathSegs root)).isPrefixOf (normSegs (pathSegs p))

-- -------------------- Concrete cpio streams --------------------

/-- An all-zero ASCII-hex header field, "00000000". -/
def z8 : List Nat := List.replicate 8 48

/-- A cpio "newc" stream holding one directory entry named `../x`
    (mode `000041ED` = 0o40755, filesize 0, namesize 5) followed by the
    `TRAILER!!!` sentinel record. -/
def c1Stream : List Nat :=
  ([48, 55, 48, 55, 48, 49] ++ z8 ++ [48, 48, 48, 48, 52, 49, 69, 68] ++ z8 ++ z8
    ++ [48, 48, 48, 48, 48, 48, 48, 50] ++ z8 ++ z8 ++ z8 ++ z8 ++ z8 ++ z8
    ++ [48, 48, 48, 48, 48, 48, 48, 53] ++ z8)
  ++ [46, 46, 47, 120, 0] ++ [0, 0, 0]
  ++ ([48, 55, 48, 55, 48, 49] ++ z8 ++ z8 ++ z8 ++ z8
    ++ [48, 48, 48, 48, 48, 48, 48, 49] ++ z8 ++ z8 ++ z8 ++ z8 ++ z8 ++ z8
    ++ [48, 48, 48, 48, 48, 48, 48, 66] ++ z8)
  ++ [84, 82, 65, 73, 76, 69, 82, 33, 33, 33, 0] ++ [0]

/-- A cpio "newc" stream holding one symlink entry named `link`
    (mode `0000A1FF` = 0o120777, filesize 6) whose 6 content bytes are
    `hi.txt`, followed by the `TRAILER!!!` sentinel record. -/
def c2Stream : List Nat :=
  ([48, 55, 48, 55, 48, 49] ++ z8 ++ [48, 48, 48, 48, 65, 49, 70, 70] ++ z8 ++ z8
    ++ [48, 48, 48, 48, 48, 48, 48, 49] ++ z8 ++ [48, 48, 48, 48, 48, 48, 48, 54]
    ++ z8 ++ z8 ++ z8 ++ z8 ++ [48, 48, 48, 48, 48, 48, 48, 53] ++ z8)
  ++ [108, 105, 110, 107, 0] ++ [0, 0, 0]
  ++ [104, 105, 46, 116, 120, 116] ++ [0, 0]
  ++ ([48, 55, 48, 55, 48, 49] ++ z8 ++ z8 ++ z8 ++ z8
    ++ [48, 48, 48, 48, 48, 48, 48, 49] ++ z8 ++ z8 ++ z8 ++ z8 ++ z8 ++ z8
    ++ [48, 48, 48, 48, 48, 48, 48, 66] ++ z8)
  ++ [84, 82, 65, 73, 76, 69, 82, 33, 33, 33, 0] ++ [0]

/-- A 110-byte record whose 6 magic bytes are the ASCII text `ABCDEF`. -/
def c5BadMagicStream : List Nat := [65, 66, 67, 68, 69, 70] ++ List.replicate 104 48

-- -------------------- Claim theorems --------------------

set_option maxRecDepth 8192 in
/-- C1: the claim says every entry is created inside the destination root even
    when the decoded name contains `..` segments.  The code only strips a
    leading separator: on the directory entry named `../x` it calls
    `os.makedirs("/d/../x")`, which resolves outside `/d` — the containment
    invariant fails, while the leading-slash part of the claim does hold
    (`/etc/passwd` lands at `/d/etc/passwd`). -/
theorem extract_cpio_dotdot_escapes_dest :
    extract_cpio_loop "/d" c1Stream =
      ⟨[FsAction.mkdirs "/d/../x"], CpioStop.sentinel⟩
    ∧ staysWithin "/d" "/d/../x" = false
    ∧ os_path_join "/d" (pyLstripSlash "/etc/passwd") = "/d/etc/passwd"
    ∧ staysWithin "/d" "/d/etc/passwd" = true := by
  exact ⟨by decide, by decide, by decide, by decide⟩

set_option maxRecDepth 8192 in
/-- C2: the claim says a symlink entry is materialized as a symlink for every
    `filesize`.  In the code the `S_ISLNK` branch sits under `if filesize == 0`,
    so a real symlink record (mode 0o120777, filesize 6, target `hi.txt`) is
    written out as a regular file containing the target text, and no symlink
    action ever occurs. -/
theorem extract_cpio_symlink_written_as_regular_file :
    extract_cpio_loop "/d" c2Stream =
      ⟨[FsAction.mkdirs "/d", FsAction.writeFile "/d/link" [104, 105, 46, 116, 120, 116]],
        CpioStop.sentinel⟩
    ∧ S_ISLNK 0xA1FF = true
    ∧ FsAction.symlink "hi.txt" "/d/link" ∉ (extract_cpio_loop "/d" c2Stream).actions := by
  exact ⟨by decide, by decide, by decide⟩

/-- Concrete recovery-type table entry named `a`. -/
def entryRecA : VendorRamdiskEntry :=
  ⟨0, 0, VENDOR_RAMDISK_TYPE_RECOVERY, "a", "", "recovery"⟩

/-- Concrete recovery-type table entry named `b`. -/
def entryRecB : VendorRamdiskEntry :=
  ⟨0, 0, VENDOR_RAMDISK_TYPE_RECOVERY, "b", "", "recovery"⟩

/-- C3 counterexample: with two recovery entries in table order the code's
    loop keeps overwriting `recovery_ramdisk_dir`, so the LAST recovery entry
    wins — not the first, as the claim states. -/
theorem select_recovery_not_first :
    select_recovery_ramdisk_dir "/w" [entryRecA, entryRecB] = some "/w/ramdisk_b"
    ∧ select_recovery_first_spec "/w" [entryRecA, entryRecB] = some "/w/ramdisk_a"
    ∧ select_recovery_ramdisk_dir "/w" [entryRecA, entryRecB]
        ≠ select_recovery_first_spec "/w" [entryRecA, entryRecB] := by
  exact ⟨by decide, by decide, by decide⟩

lemma foldl_select_eq_reverse_find (w : String) :
    ∀ (es : List VendorRamdiskEntry) (init : Option String),
      es.foldl
        (fun acc e =>
          if e.type = VENDOR_RAMDISK_TYPE_RECOVERY then some (ramdisk_dir_name w e)
          else acc)
        init =
      match es.reverse.find? (fun e => e.type == VENDOR_RAMDISK_TYPE_RECOVERY) with
      | some e => some (ramdisk_dir_name w e)
      | none => init := by
  intro es
  induction es with
  | nil => intro init; rfl
  | cons e es ih =>
    intro init
    rw [List.foldl_cons, ih]
    have hsplit :
        (e :: es).reverse.find? (fun x => x.type == VENDOR_RAMDISK_TYPE_RECOVERY) =
          (es.reverse.find? (fun x => x.type == VENDOR_RAMDISK_TYPE_RECOVERY)).or
            (([e] : List VendorRamdiskEntry).find?
              (fun x => x.type == VENDOR_RAMDISK_TYPE_RECOVERY)) := by
      rw [List.reverse_cons, List.find?_append]
    rw [hsplit]
    cases hfind : es.reverse.find? (fun x => x.type == VENDOR_RAMDISK_TYPE_RECOVERY) with
    | some x => simp
    | none =>
      simp only [Option.none_or]
      by_cases he : e.type = VENDOR_RAMDISK_TYPE_RECOVERY
      · have hb : (e.type == VENDOR_RAMDISK_TYPE_RECOVERY) = true := by simp [he]
        simp only [List.find?, hb]
        rw [if_pos he]
      · have hb : (e.type == VENDOR_RAMDISK_TYPE_RECOVERY) = false := by simp [he]
        simp only [List.find?, hb]
        rw [if_neg he]

/-- C3 (amended): the LAST entry (in table order) whose type is `recovery` is
    chosen; if no entry has type `recovery`, the first entry of the table is
    chosen as fallback (and an empty table selects nothing). -/
theorem select_recovery_prefers_last_recovery (w : String)
    (entries : List VendorRamdiskEntry) :
    select_recovery_ramdisk_dir w entries =
      match entries.reverse.find? (fun e => e.type == VENDOR_RAMDISK_TYPE_RECOVERY) with
      | some e => some (ramdisk_dir_name w e)
      | none => entries.head?.map (ramdisk_dir_name w) := by
  unfold select_recovery_ramdisk_dir
  rw [foldl_select_eq_reverse_find]
  cases hfind : entries.reverse.find? (fun e => e.type == VENDOR_RAMDISK_TYPE_RECOVERY) with
  | some x => rfl
  | none =>
    cases entries with
    | nil => rfl
    | cons e es => rfl

/-- C5 counterexample: the claim says the decoding loop stops only at the
    sentinel or at an unrecognized magic; on the empty stream it stops because
    fewer than 110 header bytes remain, which is neither. -/
theorem extract_cpio_stops_on_short_read :
    ¬ ((extract_cpio_loop "/d" []).stop = CpioStop.sentinel ∨
        ∃ m, (extract_cpio_loop "/d" []).stop = CpioStop.badMagic m) := by
  have h : (extract_cpio_loop "/d" []).stop = CpioStop.shortRead := rfl
  rw [h]
  rintro (h1 | ⟨m, h2⟩) <;> simp_all

lemma extractLoopFuel_fuelOut (d : String) :
    ∀ (f : Nat) (s : List Nat),
      (extractLoopFuel d f s).stop = CpioStop.fuelOut → 110 * f ≤ s.length := by
  intro f
  induction f with
  | zero => intro s _; simp
  | succ f ih =>
    intro s h
    rcases Nat.lt_or_ge s.length 110 with hlen | hlen
    · have ht : (s.take 110).length < 110 := by
        simp only [List.length_take]; omega
      simp only [extractLoopFuel, if_pos ht] at h
      exact absurd h (by simp)
    · have ht : ¬ (s.take 110).length < 110 := by
        simp only [List.length_take]; omega
      simp only [extractLoopFuel, if_neg ht] at h
      repeat' split at h
      all_goals simp at h
      all_goals
        (have hr := ih _ h
         simp only [List.length_drop] at hr
         omega)

/-- C5 (amended): besides the sentinel and an unrecognized (ASCII) magic tag —
    which stops the loop immediately with the entries decoded so far and a
    diagnostic, without raising — the loop also stops when fewer than 110
    header bytes remain, and it raises an exception on malformed header bytes
    (non-ASCII magic or non-hex numeric fields); no other outcome exists. -/
theorem extract_cpio_stop_conditions (d : String) (s : List Nat) :
    ((extract_cpio_loop d s).stop = CpioStop.sentinel ∨
      (∃ m, (extract_cpio_loop d s).stop = CpioStop.badMagic m) ∨
      (extract_cpio_loop d s).stop = CpioStop.shortRead ∨
      (∃ e, (extract_cpio_loop d s).stop = CpioStop.raised e))
    ∧ (s.length < 110 → extract_cpio_loop d s = ⟨[], CpioStop.shortRead⟩)
    ∧ (110 ≤ s.length → (∀ b ∈ s.take 6, b < 128) →
        asciiDecode (s.take 6) ≠ "070701" → asciiDecode (s.take 6) ≠ "070702" →
        extract_cpio_loop d s = ⟨[], CpioStop.badMagic (asciiDecode (s.take 6))⟩) := by
  refine ⟨?_, ?_, ?_⟩
  · have hfo : (extract_cpio_loop d s).stop ≠ CpioStop.fuelOut := by
      intro hc
      unfold extract_cpio_loop at hc
      have := extractLoopFuel_fuelOut d _ _ hc
      omega
    cases hstop : (extract_cpio_loop d s).stop with
    | sentinel => exact Or.inl rfl
    | badMagic m => exact Or.inr (Or.inl ⟨m, rfl⟩)
    | shortRead => exact Or.inr (Or.inr (Or.inl rfl))
    | raised e => exact Or.inr (Or.inr (Or.inr ⟨e, rfl⟩))
    | fuelOut => exact absurd hstop hfo
  · intro hshort
    have ht : (s.take 110).length < 110 := by
      simp only [List.length_take]; omega
    unfold extract_cpio_loop
    simp only [extractLoopFuel, if_pos ht]
  · intro hlen hascii hm1 hm2
    have ht : ¬ (s.take 110).length < 110 := by
      simp only [List.length_take]; omega
    have htake : (s.take 110).take 6 = s.take 6 := by
      simp [List.take_take]
    have hany : ((s.take 6).any (fun b => 128 ≤ b)) = false := by
      refine List.any_eq_false.mpr ?_
      intro b hb
      have := hascii b hb
      simp
      omega
    have hmag :
        (asciiDecode (s.take 6) ≠ "070701" && asciiDecode (s.take 6) ≠ "070702") = true := by
      simp [hm1, hm2]
    unfold extract_cpio_loop
    simp only [extractLoopFuel, if_neg ht, htake, hany, hmag]
    simp

/-- A stream of a single byte: too short for a 110-byte header. -/
def c5ShortStream : List Nat := [48]

/-- Witness for `extract_cpio_stop_conditions` at two concrete streams. -/
theorem extract_cpio_stop_conditions_witness :
    extract_cpio_loop "/d" c5ShortStream = ⟨[], CpioStop.shortRead⟩
    ∧ extract_cpio_loop "/d" c5BadMagicStream = ⟨[], CpioStop.badMagic "ABCDEF"⟩ := by
  constructor
  · exact (extract_cpio_stop_conditions "/d" c5ShortStream).2.1 (by decide)
  · have h := (extract_cpio_stop_conditions "/d" c5BadMagicStream).2.2
      (by decide) (by decide) (by decide) (by decide)
    rw [h]
    decide

/-- C4: for every parsed header and buffer, `get_dtb_offset` returns
    `header_size + vendor_bootconfig_size + vendor_ramdisk_total_size` whenever
    that value plus `dtb_size` fits in the buffer, and `len(data) - dtb_size`
    otherwise — in which case the DTB slice is exactly the final `dtb_size`
    bytes of the buffer. -/
theorem get_dtb_offset_primary_or_clamped (h : VendorBootHeader) :
    (h.header_size + h.vendor_bootconfig_size + h.vendor_ramdisk_total_size
        + h.dtb_size ≤ h.data.length →
      h.get_dtb_offset =
        ((h.header_size + h.vendor_bootconfig_size + h.vendor_ramdisk_total_size : Nat) : Int))
    ∧ (h.data.length <
        h.header_size + h.vendor_bootconfig_size + h.vendor_ramdisk_total_size
          + h.dtb_size →
      h.get_dtb_offset = (h.data.length : Int) - (h.dtb_size : Int)
      ∧ (h.dtb_size ≤ h.data.length →
          sliceBytes h.data (h.data.length - h.dtb_size) h.dtb_size =
            h.data.drop (h.data.length - h.dtb_size))) := by
  constructor
  · intro hfit
    unfold VendorBootHeader.get_dtb_offset
    rw [if_neg]
    · push_cast
      ring
    · omega
  · intro hover
    constructor
    · unfold VendorBootHeader.get_dtb_offset
      rw [if_pos]
      omega
    · intro hdtb
      unfold sliceBytes
      apply List.take_of_length_le
      simp [List.length_drop]
      omega

/-- Concrete header whose sections fit the buffer: primary offset `3`. -/
def c4FitHeader : VendorBootHeader :=
  { data := [0, 1, 2, 3, 4, 5, 6, 7], magic := BOOT_MAGIC_VENDOR_BOOT
    header_version := 4, page_size := 4096, kernel_load_addr := 0
    ramdisk_load_addr := 0, vendor_ramdisk_total_size := 2, cmdline := ""
    tags_load_addr := 0, product_name := "", header_size := 1, dtb_size := 4
    dtb_load_addr := 0, vendor_ramdisk_table_size := 0
    vendor_ramdisk_table_num_entries := 0, vendor_bootconfig_size := 0
    table_offset := 2172 }

/-- Concrete header whose primary offset overruns the buffer: clamped. -/
def c4ClampHeader : VendorBootHeader :=
  { data := [0, 1, 2, 3, 4, 5, 6, 7], magic := BOOT_MAGIC_VENDOR_BOOT
    header_version := 4, page_size := 4096, kernel_load_addr := 0
    ramdisk_load_addr := 0, vendor_ramdisk_total_size := 6, cmdline := ""
    tags_load_addr := 0, product_name := "", header_size := 1, dtb_size := 4
    dtb_load_addr := 0, vendor_ramdisk_table_size := 0
    vendor_ramdisk_table_num_entries := 0, vendor_bootconfig_size := 0
    table_offset := 2172 }

/-- Witness for `get_dtb_offset_primary_or_clamped` at two concrete headers. -/
theorem get_dtb_offset_primary_or_clamped_witness :
    c4FitHeader.get_dtb_offset = (3 : Int)
    ∧ c4ClampHeader.get_dtb_offset = (4 : Int)
    ∧ sliceBytes c4ClampHeader.data 4 4 = [4, 5, 6, 7] := by
  refine ⟨?_, ?_, by decide⟩
  · have h := (get_dtb_offset_primary_or_clamped c4FitHeader).1 (by decide)
    rw [h]
    decide
  · have h := ((get_dtb_offset_primary_or_clamped c4ClampHeader).2 (by decide)).1
    rw [h]
    decide

lemma ramdiskEntriesLoop_ok (data : List Nat) (t : Nat) :
    ∀ (n i : Nat), t + (i + n) * 76 ≤ data.length →
      ramdiskEntriesLoop data t 76 i n =
        .ok ((List.range n).map
          (fun j => parseRamdiskEntry (sliceBytes data (t + (i + j) * 76) 76))) := by
  intro n
  induction n with
  | zero => intro i _; rfl
  | succ n ih =>
    intro i hbound
    have hfull : ¬ (sliceBytes data (t + i * 76) 76).length < 76 := by
      simp only [sliceBytes, List.length_take, List.length_drop]
      omega
    have hrec := ih (i + 1) (by omega)
    simp only [ramdiskEntriesLoop, if_neg hfull, hrec]
    have harith : ∀ j : Nat, t + (i + 1 + j) * 76 = t + (i + (j + 1)) * 76 := by
      intro j; ring_nf
    simp [List.range_succ_eq_map, List.map_map, Function.comp, harith]

lemma ramdiskEntriesLoop_error (data : List Nat) (t : Nat) :
    ∀ (n i : Nat), data.length < t + (i + n) * 76 → 0 < n →
      ∃ msg, ramdiskEntriesLoop data t 76 i n = .error msg := by
  intro n
  induction n with
  | zero => intro i _ h0; omega
  | succ n ih =>
    intro i hbound _
    by_cases hshort : (sliceBytes data (t + i * 76) 76).length < 76
    · exact ⟨"Truncated ramdisk table at entry " ++ toString i,
        by simp only [ramdiskEntriesLoop, if_pos hshort]⟩
    · have hlen : t + i * 76 + 76 ≤ data.length := by
        simp only [sliceBytes, List.length_take, List.length_drop] at hshort
        omega
      cases n with
      | zero => omega
      | succ m =>
        obtain ⟨msg, hm⟩ := ih (i + 1) (by omega) (by omega)
        refine ⟨msg, ?_⟩
        rw [ramdiskEntriesLoop.eq_2, if_neg hshort, hm]

/-- C6: the table decoder returns exactly `vendor_ramdisk_table_num_entries`
    entries in table order — entry `i` parsed from the 76-byte slice at
    `table_offset + i * 76` — whenever `num_entries * 76` bytes are available
    from `table_offset`, and fails with the truncated-table error when the
    buffer ends before that (for a non-empty table). -/
theorem get_ramdisk_entries_table (h : VendorBootHeader) :
    ((h.vendor_ramdisk_table_num_entries = 0 ∨
        h.table_offset + h.vendor_ramdisk_table_num_entries * 76 ≤ h.data.length) →
      h.get_ramdisk_entries = .ok
        ((List.range h.vendor_ramdisk_table_num_entries).map
          (fun i => parseRamdiskEntry (sliceBytes h.data (h.table_offset + i * 76) 76))))
    ∧ (h.data.length < h.table_offset + h.vendor_ramdisk_table_num_entries * 76 →
        0 < h.vendor_ramdisk_table_num_entries →
        ∃ msg, h.get_ramdisk_entries = .error msg) := by
  have hsize : 4 + 4 + 4 + VENDOR_RAMDISK_NAME_SIZE + BOOT_ID_SIZE = 76 := by decide
  constructor
  · rintro (hzero | hfits)
    · simp [VendorBootHeader.get_ramdisk_entries, hzero]
    · unfold VendorBootHeader.get_ramdisk_entries
      rw [hsize]
      by_cases hzero : h.vendor_ramdisk_table_num_entries = 0
      · simp [hzero]
      · rw [if_neg hzero]
        have := ramdiskEntriesLoop_ok h.data h.table_offset
          h.vendor_ramdisk_table_num_entries 0 (by omega)
        simpa using this
  · intro hover hpos
    unfold VendorBootHeader.get_ramdisk_entries
    rw [hsize, if_neg (by omega)]
    exact ramdiskEntriesLoop_error h.data h.table_offset
      h.vendor_ramdisk_table_num_entries 0 (by omega) hpos

/-- Concrete header with one full 76-byte table entry at `table_offset = 0`. -/
def c6OkHeader : VendorBootHeader :=
  { data := List.replicate 76 0, magic := BOOT_MAGIC_VENDOR_BOOT
    header_version := 4, page_size := 4096, kernel_load_addr := 0
    ramdisk_load_addr := 0, vendor_ramdisk_total_size := 0, cmdline := ""
    tags_load_addr := 0, product_name := "", header_size := 0, dtb_size := 0
    dtb_load_addr := 0, vendor_ramdisk_table_size := 76
    vendor_ramdisk_table_num_entries := 1, vendor_bootconfig_size := 0
    table_offset := 0 }

/-- The same header truncated by one byte. -/
def c6BadHeader : VendorBootHeader :=
  { data := List.replicate 75 0, magic := BOOT_MAGIC_VENDOR_BOOT
    header_version := 4, page_size := 4096, kernel_load_addr := 0
    ramdisk_load_addr := 0, vendor_ramdisk_total_size := 0, cmdline := ""
    tags_load_addr := 0, product_name := "", header_size := 0, dtb_size := 0
    dtb_load_addr := 0, vendor_ramdisk_table_size := 76
    vendor_ramdisk_table_num_entries := 1, vendor_bootconfig_size := 0
    table_offset := 0 }

/-- Witness for `get_ramdisk_entries_table` at two concrete headers. -/
theorem get_ramdisk_entries_table_witness :
    c6OkHeader.get_ramdisk_entries =
      .ok [parseRamdiskEntry (sliceBytes c6OkHeader.data 0 76)]
    ∧ (c6BadHeader.get_ramdisk_entries).toOption = none := by
  constructor
  · have h := (get_ramdisk_entries_table c6OkHeader).1 (Or.inr (by decide))
    rw [h]
    exact congrArg Except.ok (by decide)
  · obtain ⟨msg, hm⟩ :=
      (get_ramdisk_entries_table c6BadHeader).2 (by decide) (by decide)
    rw [hm]
    rfl

/-- A 2172-byte vendor_boot buffer whose cmdline region holds the bytes
    `a`, `0xFF` (invalid UTF-8), `b`, NUL-padded; all numeric fields zero. -/
def c7Data : List Nat :=
  BOOT_MAGIC_VENDOR_BOOT
  ++ List.replicate 20 0
  ++ ([97, 255, 98] ++ List.replicate 2045 0)
  ++ List.replicate 4 0
  ++ List.replicate 64 0
  ++ List.replicate 28 0

set_option maxRecDepth 9000 in
/-- C7 counterexample: the claim says invalid byte sequences in the text
    fields are REPLACED.  The code decodes with `errors='ignore'`, which drops
    them: the cmdline bytes `a 0xFF b` parse to `"ab"`, while replace-decoding
    of the same region yields `"a�b" ≠ "ab"`. -/
theorem parse_cmdline_ignores_not_replaces :
    (VendorBootHeader.parse c7Data).toOption.map (fun h => h.cmdline) = some "ab"
    ∧ pyDecodeUtf8Replace
        (pyRstripNul (sliceBytes c7Data 28 VENDOR_RAMDISK_CMDLINE_SIZE)) ≠ "ab" := by
  constructor
  · rfl
  · have h : pyDecodeUtf8Replace
        (pyRstripNul (sliceBytes c7Data 28 VENDOR_RAMDISK_CMDLINE_SIZE)) =
        ⟨['a', Char.ofNat 0xFFFD, 'b']⟩ := rfl
    rw [h]
    decide

lemma readU32_of_le (data : List Nat) (off : Nat) (h : off + 4 ≤ data.length) :
    readU32 data off = some (le_value (sliceBytes data off 4)) := by
  unfold readU32
  rw [if_pos]
  simp only [sliceBytes, List.length_take, List.length_drop]
  omega

lemma readU64_of_le (data : List Nat) (off : Nat) (h : off + 8 ≤ data.length) :
    readU64 data off = some (le_value (sliceBytes data off 8)) := by
  unfold readU64
  rw [if_pos]
  simp only [sliceBytes, List.length_take, List.length_drop]
  omega

/-- C7 (amended): the cmdline and product-name fields are the fixed-width
    regions at offsets 28 (2048 bytes) and 2080 (64 bytes), NUL-rstripped and
    decoded leniently with invalid byte sequences DROPPED (`errors='ignore'`)
    rather than raising; text bytes never make the parse fail — a buffer with
    valid magic and at least the 2172 fixed-header bytes always parses. -/
theorem parse_text_fields_lenient (data : List Nat) :
    (∀ h, VendorBootHeader.parse data = .ok h →
      h.cmdline =
        pyDecodeUtf8Ignore (pyRstripNul (sliceBytes data 28 VENDOR_RAMDISK_CMDLINE_SIZE))
      ∧ h.product_name =
        pyDecodeUtf8Ignore (pyRstripNul (sliceBytes data 2080 BOOT_PRODUCT_NAME_SIZE)))
    ∧ (data.take 8 = BOOT_MAGIC_VENDOR_BOOT → 2172 ≤ data.length →
        (VendorBootHeader.parse data).toOption ≠ none) := by
  constructor
  · intro h hp
    unfold VendorBootHeader.parse at hp
    by_cases hmagic : data.take 8 ≠ BOOT_MAGIC_VENDOR_BOOT
    · rw [if_pos hmagic] at hp
      exact absurd hp (by simp)
    · rw [if_neg hmagic] at hp
      split at hp
      · injection hp with hx
        subst hx
        exact ⟨rfl, rfl⟩
      · exact absurd hp (by simp)
  · intro hmagic hlen
    unfold VendorBootHeader.parse
    rw [if_neg (by simp [hmagic])]
    rw [readU32_of_le data 8 (by omega), readU32_of_le data 12 (by omega),
      readU32_of_le data 16 (by omega), readU32_of_le data 20 (by omega),
      readU32_of_le data 24 (by omega), readU32_of_le data 2076 (by omega),
      readU32_of_le data 2144 (by omega), readU32_of_le data 2148 (by omega),
      readU64_of_le data 2152 (by omega), readU32_of_le data 2160 (by omega),
      readU32_of_le data 2164 (by omega), readU32_of_le data 2168 (by omega)]
    simp [Except.toOption]

set_option maxRecDepth 9000 in
/-- Witness for `parse_text_fields_lenient` at the concrete buffer `c7Data`. -/
theorem parse_text_fields_lenient_witness :
    (VendorBootHeader.parse c7Data).toOption ≠ none
    ∧ (VendorBootHeader.parse c7Data).toOption.map (fun h => h.product_name) = some "" := by
  have hlen : c7Data.length = 2172 := rfl
  have hok := (parse_text_fields_lenient c7Data).2 rfl (by omega)
  refine ⟨hok, ?_⟩
  cases hp : VendorBootHeader.parse c7Data with
  | error e => exact absurd (by rw [hp]; rfl) hok
  | ok hdr =>
    have h1 := ((parse_text_fields_lenient c7Data).1 hdr hp).2
    simp only [Except.toOption, Option.map_some]
    refine congrArg some ?_
    show hdr.product_name = ""
    rw [h1]
    rfl

lemma bytesSliceEq_iff (hay pat : List Nat) (i : Nat) :
    bytesSliceEq hay pat i = true ↔ hasOccAt hay pat i := by
  simp [bytesSliceEq, hasOccAt]

lemma hasOccAt_le {hay pat : List Nat} {i : Nat} (hp : pat ≠ [])
    (h : hasOccAt hay pat i) : i + pat.length ≤ hay.length := by
  unfold hasOccAt at h
  have hlen := congrArg List.length h
  simp only [sliceBytes, List.length_take, List.length_drop] at hlen
  have hpos : 0 < pat.length := List.length_pos.mpr hp
  omega

lemma rfindGo_eq_some (hay pat : List Nat) :
    ∀ (i j : Nat), rfindGo hay pat i = some j →
      hasOccAt hay pat j ∧ j ≤ i ∧ ∀ k, j < k → k ≤ i → ¬ hasOccAt hay pat k := by
  intro i
  induction i with
  | zero =>
    intro j h
    unfold rfindGo at h
    split at h
    · cases h
      refine ⟨(bytesSliceEq_iff hay pat 0).mp (by assumption), Nat.le_refl 0, ?_⟩
      intro k hk1 hk2
      omega
    · cases h
  | succ i ih =>
    intro j h
    rw [rfindGo.eq_2] at h
    split at h
    · cases h
      refine ⟨(bytesSliceEq_iff hay pat (i + 1)).mp (by assumption), Nat.le_refl _, ?_⟩
      intro k hk1 hk2
      omega
    · obtain ⟨h1, h2, h3⟩ := ih j h
      refine ⟨h1, by omega, ?_⟩
      intro k hk1 hk2
      rcases Nat.lt_or_ge k (i + 1) with hk | hk
      · exact h3 k hk1 (by omega)
      · have hkeq : k = i + 1 := by omega
        subst hkeq
        intro hocc
        exact absurd ((bytesSliceEq_iff hay pat (i + 1)).mpr hocc) (by assumption)

lemma bytesRfind_eq_some {data : List Nat} {pat : List Nat} {j : Nat}
    (hp : pat ≠ []) (h : bytesRfind data pat = some j) :
    hasOccAt data pat j ∧ ∀ k, hasOccAt data pat k → k ≤ j := by
  obtain ⟨h1, _, h3⟩ := rfindGo_eq_some data pat data.length j h
  refine ⟨h1, fun k hk => ?_⟩
  by_contra hlt
  push_neg at hlt
  exact h3 k hlt (by have := hasOccAt_le hp hk; omega) hk

lemma findFromGo_eq_some (hay pat : List Nat) :
    ∀ (fuel i j : Nat), findFromGo hay pat i fuel = some j →
      hasOccAt hay pat j ∧ i ≤ j ∧ ∀ k, i ≤ k → k < j → ¬ hasOccAt hay pat k := by
  intro fuel
  induction fuel with
  | zero => intro i j h; cases h
  | succ fuel ih =>
    intro i j h
    rw [findFromGo.eq_2] at h
    split at h
    · cases h
      refine ⟨(bytesSliceEq_iff hay pat _).mp (by assumption), Nat.le_refl _, ?_⟩
      intro k hk1 hk2
      omega
    · obtain ⟨h1, h2, h3⟩ := ih (i + 1) j h
      refine ⟨h1, by omega, ?_⟩
      intro k hk1 hk2
      rcases Nat.lt_or_ge k (i + 1) with hk | hk
      · have hkeq : k = i := by omega
        subst hkeq
        intro hocc
        exact absurd ((bytesSliceEq_iff hay pat _).mpr hocc) (by assumption)
      · exact h3 k hk hk2

lemma bytesFindFrom_eq_some {hay pat : List Nat} {start j : Nat}
    (h : bytesFindFrom hay pat start = some j) :
    hasOccAt hay pat j ∧ start ≤ j ∧
      ∀ k, start ≤ k → k < j → ¬ hasOccAt hay pat k := by
  exact findFromGo_eq_some hay pat (hay.length + 1 - start) start j h

lemma bytesFindFrom_ge_len (hay pat : List Nat) (start : Nat) (hp : pat ≠ [])
    (h : hay.length ≤ start) : bytesFindFrom hay pat start = none := by
  cases hf : bytesFindFrom hay pat start with
  | none => rfl
  | some j =>
    obtain ⟨h1, h2, _⟩ := bytesFindFrom_eq_some hf
    have h3 := hasOccAt_le hp h1
    have hpos : 0 < pat.length := List.length_pos.mpr hp
    omega

/-- The two halves of `patch_adaptive_ts` really compose to: first-step
    replacement, then find/replace of pattern 2 from the cursor (the
    `search_start < len(new_data)` guard never changes the outcome because a
    find past the end fails anyway). -/
lemma patch_adaptive_ts_eq (data : List Nat) :
    patch_adaptive_ts data =
      match bytesFindFrom (patch_blob1 data) pattern2_old (patch_cursor1 data) with
      | some pos2 => ⟨pyReplace (patch_blob1 data) pos2 pattern2_new pattern2_old, true⟩
      | none => ⟨patch_blob1 data, (bytesRfind data pattern1_old).isSome⟩ := by
  unfold patch_adaptive_ts patch_blob1 patch_cursor1
  cases hr : bytesRfind data pattern1_old with
  | some i =>
    dsimp only
    unfold patch_step2
    by_cases hlt : i + pattern1_new.length <
        (pyReplace data i pattern1_new pattern1_old).length
    · rw [if_pos hlt]
      cases bytesFindFrom (pyReplace data i pattern1_new pattern1_old) pattern2_old
          (i + pattern1_new.length) <;> simp
    · rw [if_neg hlt]
      have hnone := bytesFindFrom_ge_len
        (pyReplace data i pattern1_new pattern1_old) pattern2_old
        (i + pattern1_new.length) (by decide) (by omega)
      rw [hnone]
      simp
  | none =>
    dsimp only
    unfold patch_step2
    by_cases hlt : 0 < data.length
    · rw [if_pos hlt]
      cases bytesFindFrom data pattern2_old 0 <;> simp
    · rw [if_neg hlt]
      have hnone := bytesFindFrom_ge_len data pattern2_old 0 (by decide) (by omega)
      rw [hnone]
      simp

/-- C8: the patcher replaces the rightmost occurrence of pattern 1 (the found
    index really is an occurrence and no later index is one), sets the cursor
    immediately after it (0 when absent), and replaces the first occurrence of
    pattern 2 at or after the cursor, never one before it; the whole function
    equals the cursor-based two-step description. -/
theorem patch_adaptive_ts_order (data : List Nat) :
    patch_adaptive_ts data = patch_spec data
    ∧ (∀ i, bytesRfind data pattern1_old = some i →
        hasOccAt data pattern1_old i ∧ ∀ j, hasOccAt data pattern1_old j → j ≤ i)
    ∧ (∀ b c p, bytesFindFrom b pattern2_old c = some p →
        c ≤ p ∧ hasOccAt b pattern2_old p ∧
          ∀ q, c ≤ q → q < p → ¬ hasOccAt b pattern2_old q) := by
  refine ⟨?_, ?_, ?_⟩
  · rw [patch_adaptive_ts_eq]
    rfl
  · intro i hi
    exact bytesRfind_eq_some (by decide) hi
  · intro b c p hp
    obtain ⟨h1, h2, h3⟩ := bytesFindFrom_eq_some hp
    exact ⟨h2, h1, h3⟩

/-- Blob with pattern 1 at offsets 0 and 10 and pattern 2 at offsets 6 and 16:
    only the rightmost pattern 1 and the post-cursor pattern 2 are patched. -/
def c8Blob : List Nat := pattern1_old ++ pattern2_old ++ pattern1_old ++ pattern2_old

/-- Witness for `patch_adaptive_ts_order` at the concrete blob `c8Blob`. -/
theorem patch_adaptive_ts_order_witness :
    patch_adaptive_ts c8Blob = patch_spec c8Blob
    ∧ hasOccAt c8Blob pattern1_old 10
    ∧ patch_adaptive_ts c8Blob =
        ⟨pattern1_old ++ pattern2_old ++ pattern1_new ++ pattern2_new, true⟩ := by
  refine ⟨(patch_adaptive_ts_order c8Blob).1, ?_, by decide⟩
  exact ((patch_adaptive_ts_order c8Blob).2.1 10 (by decide)).1

/-- C9: the patched blob is written back (the `modified` flag) exactly when
    pattern 1 was found or pattern 2 was found at/after the cursor; when
    neither is found the in-memory blob is byte-for-byte the original, so the
    file is left untouched. -/
theorem patch_write_iff_modified (data : List Nat) :
    ((patch_adaptive_ts data).modified = true ↔
      ((bytesRfind data pattern1_old).isSome = true ∨
        (bytesFindFrom (patch_blob1 data) pattern2_old (patch_cursor1 data)).isSome = true))
    ∧ ((patch_adaptive_ts data).modified = false →
        (patch_adaptive_ts data).new_data = data) := by
  rw [patch_adaptive_ts_eq]
  cases hf : bytesFindFrom (patch_blob1 data) pattern2_old (patch_cursor1 data) with
  | some p => dsimp only; simp
  | none =>
    dsimp only
    constructor
    · simp
    · intro hmod
      cases hr : bytesRfind data pattern1_old with
      | some i =>
        rw [hr] at hmod
        simp at hmod
      | none =>
        unfold patch_blob1
        rw [hr]

/-- Witness for `patch_write_iff_modified` at a patternless blob. -/
theorem patch_write_iff_modified_witness :
    (patch_adaptive_ts [0, 1, 2]).new_data = [0, 1, 2]
    ∧ (patch_adaptive_ts [0, 1, 2]).modified = false := by
  refine ⟨(patch_write_iff_modified [0, 1, 2]).2 (by decide), by decide⟩

lemma pyReplace_length {l new old : List Nat} {pos : Nat}
    (hlen : new.length = old.length) (hocc : pos + old.length ≤ l.length) :
    (pyReplace l pos new old).length = l.length := by
  simp only [pyReplace, List.length_append, List.length_take, List.length_drop]
  omega

lemma pyReplace_getElem_outside {l new old : List Nat} {pos k : Nat}
    (hlen : new.length = old.length) (hocc : pos + old.length ≤ l.length)
    (hout : k < pos ∨ pos + old.length ≤ k) :
    (pyReplace l pos new old)[k]? = l[k]? := by
  unfold pyReplace
  have htlen : (l.take pos).length = pos := by
    simp only [List.length_take]
    omega
  have hlen2 : (l.take pos ++ new).length = pos + old.length := by
    simp only [List.length_append, htlen, hlen]
  rcases hout with hlt | hge
  · rw [List.getElem?_append_left (by omega), List.getElem?_append_left (by omega)]
    exact List.getElem?_take_of_lt hlt
  · rw [List.getElem?_append_right (by omega), hlen2, List.getElem?_drop]
    have harith : pos + old.length + (k - (pos + old.length)) = k := by omega
    rw [harith]

/-- C10: both pattern pairs have equal old/new lengths (6 and 4 bytes), so the
    patched blob always has the length of the original, and every byte outside
    the replaced span(s) is unchanged. -/
theorem patch_preserves_length_and_frame (data : List Nat) :
    pattern1_old.length = pattern1_new.length
    ∧ pattern2_old.length = pattern2_new.length
    ∧ (patch_adaptive_ts data).new_data.length = data.length
    ∧ ∀ k,
        (∀ i, bytesRfind data pattern1_old = some i →
          k < i ∨ i + pattern1_old.length ≤ k) →
        (∀ p, bytesFindFrom (patch_blob1 data) pattern2_old (patch_cursor1 data) = some p →
          k < p ∨ p + pattern2_old.length ≤ k) →
        (patch_adaptive_ts data).new_data[k]? = data[k]? := by
  have hblob_len : (patch_blob1 data).length = data.length := by
    unfold patch_blob1
    cases hr : bytesRfind data pattern1_old with
    | some i =>
      have hocc := (bytesRfind_eq_some (by decide) hr).1
      exact pyReplace_length (by decide) (hasOccAt_le (by decide) hocc)
    | none => rfl
  have hblob_get : ∀ k,
      (∀ i, bytesRfind data pattern1_old = some i →
        k < i ∨ i + pattern1_old.length ≤ k) →
      (patch_blob1 data)[k]? = data[k]? := by
    intro k hk
    unfold patch_blob1
    cases hr : bytesRfind data pattern1_old with
    | some i =>
      have hocc := (bytesRfind_eq_some (by decide) hr).1
      exact pyReplace_getElem_outside (by decide) (hasOccAt_le (by decide) hocc) (hk i hr)
    | none => rfl
  refine ⟨by decide, by decide, ?_, ?_⟩
  · rw [patch_adaptive_ts_eq]
    cases hf : bytesFindFrom (patch_blob1 data) pattern2_old (patch_cursor1 data) with
    | some p =>
      have hocc := (bytesFindFrom_eq_some hf).1
      have hne2 : pattern2_old ≠ [] := by decide
      have hle := hasOccAt_le hne2 hocc
      simp only []
      rw [pyReplace_length (by decide) hle]
      exact hblob_len
    | none => exact hblob_len
  · intro k hk1 hk2
    rw [patch_adaptive_ts_eq]
    cases hf : bytesFindFrom (patch_blob1 data) pattern2_old (patch_cursor1 data) with
    | some p =>
      have hocc := (bytesFindFrom_eq_some hf).1
      have hne2 : pattern2_old ≠ [] := by decide
      have hle := hasOccAt_le hne2 hocc
      simp only []
      rw [pyReplace_getElem_outside (by decide) hle (hk2 p hf)]
      exact hblob_get k hk1
    | none => exact hblob_get k hk1

/-- Witness for `patch_preserves_length_and_frame`: on a blob holding exactly
    pattern 1, the span `[0, 6)` is replaced and index 7 (outside the list) is
    unchanged, with length preserved. -/
theorem patch_preserves_length_and_frame_witness :
    (patch_adaptive_ts pattern1_old).new_data.length = pattern1_old.length
    ∧ (patch_adaptive_ts pattern1_old).new_data[7]? = pattern1_old[7]? := by
  constructor
  · exact (patch_preserves_length_and_frame pattern1_old).2.2.1
  · refine (patch_preserves_length_and_frame pattern1_old).2.2.2 7 ?_ ?_
    · intro i hi
      have hi0 : i = 0 := by
        have hr : bytesRfind pattern1_old pattern1_old = some 0 := by decide
        rw [hr] at hi
        cases hi
        rfl
      have hl : pattern1_old.length = 6 := rfl
      omega
    · intro p hp
      have hnone : bytesFindFrom (patch_blob1 pattern1_old) pattern2_old
          (patch_cursor1 pattern1_old) = none := by decide
      rw [hnone] at hp
      cases hp

end VendorBoot
